import Mathlib

/-!
Verification of the PharmacoNet reverse-screening driver
(`reverse_screening.py`) against its specification.

The embedding models the driver's pure data flow.  External effects are
abstracted as explicit oracle functions:

* `PharmacophoreModel.load` plus the subsequent `scoring_smiles` /
  `scoring_file` call are one oracle `scoring : String → Except String ℚ`
  from a model path to a score, with `.error` standing for a raised
  Python exception;
* `Path.exists` is an oracle `fileExists : String → Bool`;
* the filesystem snapshot seen by `Path.rglob` is a tree of `FSNode`
  values whose per-directory entry lists are in the platform's
  enumeration order.

Scores (Python floats) are modelled as rationals: every claim under
study concerns only ordering and equality of scores, where `ℚ` and
non-NaN floats agree.
-/

namespace RevScreening

/-- A query record as built by `parse_query_csv` or single-query mode:
keys `name`, `query`, `is_smiles` of the Python dict. -/
structure QueryRec where
  name : String
  query : String
  is_smiles : Bool
deriving DecidableEq, Repr

/-- Python truthiness of an optional string command-line argument:
`None` and the empty string are falsy. -/
def truthy : Option String → Bool
  | none => false
  | some s => s != ""

/-- Embedding of `is_smiles` (reverse_screening.py:127-129): a query
string is treated as SMILES exactly when it does not name an existing
filesystem path. -/
def is_smiles (fileExists : String → Bool) (query_str : String) : Bool :=
  !fileExists query_str

/-- Embedding of the worker `score_model` (reverse_screening.py:132-154).
The first component is the returned `(model_path, score)` pair; the
second is the stderr diagnostic, `some msg` exactly when the oracle
raised.  On an exception the worker returns the sentinel score `-1.0`. -/
def score_model (scoring : String → Except String ℚ) (model_path : String) :
    (String × ℚ) × Option String :=
  match scoring model_path with
  | .ok s => ((model_path, s), none)
  | .error e => ((model_path, -1), some ("Error processing " ++ model_path ++ ": " ++ e))

/-- The comparator of `result.sort(key=lambda x: x[1], reverse=True)`
(reverse_screening.py:290): `a` may precede `b` when `a`'s score is at
least `b`'s. -/
def scoreLe (a b : String × ℚ) : Bool :=
  decide (b.2 ≤ a.2)

/-- Embedding of the filter step (reverse_screening.py:287): keep
exactly the results whose score is at least `minScore`. -/
def filterResults (minScore : ℚ) (rs : List (String × ℚ)) : List (String × ℚ) :=
  rs.filter (fun p => decide (minScore ≤ p.2))

/-- Embedding of the sort step (reverse_screening.py:290).  Python's
`list.sort` is a stable sort; with `reverse=True` it stable-sorts by
descending key, which is exactly `mergeSort` with `scoreLe`. -/
def sortResults (rs : List (String × ℚ)) : List (String × ℚ) :=
  rs.mergeSort scoreLe

/-- Python list slicing `rs[:k]` for an arbitrary integer `k`
(reverse_screening.py:294): a non-negative `k` takes the first `k`
entries, a negative `k` drops the last `-k` entries. -/
def pyTruncate (k : ℤ) (rs : List (String × ℚ)) : List (String × ℚ) :=
  rs.take (if k < 0 then ((rs.length : ℤ) + k).toNat else k.toNat)

/-- The per-query ranking pipeline of `main`
(reverse_screening.py:286-294): filter by `minScore`, stable-sort by
descending score, then truncate when `top_n` is not `None`. -/
def rankResults (minScore : ℚ) (topN : Option ℤ) (rs : List (String × ℚ)) :
    List (String × ℚ) :=
  match topN with
  | none => sortResults (filterResults minScore rs)
  | some k => pyTruncate k (sortResults (filterResults minScore rs))

/-- One CSV row as produced by `csv.DictReader`: an association list
from header names to cell values (header names are unique). -/
abbrev Row := List (String × String)

/-- Python `row.get(k, d)` on a `DictReader` row. -/
def rowGet (row : Row) (k : String) (d : String) : String :=
  match row.find? (fun p => p.1 == k) with
  | some p => p.2
  | none => d

/-- Embedding of the per-row logic of `parse_query_csv`
(reverse_screening.py:179-196).  Returns the query built from the row
(or `none` when the row is skipped) together with the warnings printed
for the row (the Python messages interpolate the row dict; the
interpolated repr is elided here). -/
def parseRow (fileExists : String → Bool) (row : Row) : Option QueryRec × List String :=
  let name := rowGet row "Name" (rowGet row "name" "")
  let smiles := rowGet row "SMILES" (rowGet row "smiles" "")
  let file_path := rowGet row "File" (rowGet row "file" "")
  if name = "" then
    (none, ["Warning: Skipping row with missing name"])
  else if smiles ≠ "" then
    (some ⟨name, smiles, true⟩, [])
  else if file_path ≠ "" then
    if fileExists file_path then
      (some ⟨name, file_path, false⟩, [])
    else
      (none, ["Warning: File not found for " ++ name ++ ": " ++ file_path])
  else
    (none, ["Warning: Skipping " ++ name ++ " - no SMILES or File provided"])

/-- Embedding of `parse_query_csv` (reverse_screening.py:157-198): fold
the per-row logic over the rows in order, collecting the accepted
queries and the emitted warnings. -/
def parse_query_csv (fileExists : String → Bool) (rows : List Row) :
    List QueryRec × List String :=
  rows.foldr
    (fun row acc =>
      let pr := parseRow fileExists row
      (match pr.1 with
       | some q => q :: acc.1
       | none => acc.1,
       pr.2 ++ acc.2))
    ([], [])

/-- The screening loop of `main` (reverse_screening.py:262-298): for
each query in order, score every model, rank the results, and tag each
retained row with the query's name, accumulating into one flat table. -/
def screenAll (qs : List QueryRec) (modelFiles : List String)
    (scoring : QueryRec → String → Except String ℚ)
    (minScore : ℚ) (topN : Option ℤ) : List (String × String × ℚ) :=
  qs.flatMap fun q =>
    (rankResults minScore topN
        (modelFiles.map fun m => (score_model (scoring q) m).1)).map
      fun r => (q.name, r.1, r.2)

/-- The database checks and screening part of `main`
(reverse_screening.py:232-298): abort when the database directory is
missing or contains no `.pm` file, else screen every query. -/
def runScreening (qs : List QueryRec) (dbExists : Bool) (modelFiles : List String)
    (scoring : QueryRec → String → Except String ℚ)
    (minScore : ℚ) (topN : Option ℤ) : Except String (List (String × String × ℚ)) :=
  if dbExists = false then
    .error "ERROR: Database directory not found"
  else if modelFiles = [] then
    .error "ERROR: No .pm files found in database directory!"
  else
    .ok (screenAll qs modelFiles scoring minScore topN)

/-- Embedding of the driver `main` (reverse_screening.py:201-323).
`.error msg` models a run that exits with non-zero status before the
output file is written (`parser.error` exits 2, `sys.exit(1)` exits 1);
`.ok rows` models a completed run whose output table holds `rows`
(each `(query_name, pharmacophore_model, score)`).  `rows?` is the
content of the `--query_csv` file when that flag is given, `dbExists`
the existence of the model database directory, `modelFiles` the list
returned by `rglob`, and `scoring q m` the external load-and-score call
of query `q` against model file `m`. -/
def runMain (query_molecule : Option String) (rows? : Option (List Row))
    (fileExists : String → Bool) (dbExists : Bool) (modelFiles : List String)
    (scoring : QueryRec → String → Except String ℚ)
    (minScore : ℚ) (topN : Option ℤ) : Except String (List (String × String × ℚ)) :=
  if truthy query_molecule = false ∧ rows?.isSome = false then
    .error "Must provide either --query_molecule or --query_csv"
  else if truthy query_molecule = true ∧ rows?.isSome = true then
    .error "Cannot use both --query_molecule and --query_csv"
  else
    match rows? with
    | some rows =>
      if (parse_query_csv fileExists rows).1 = [] then
        .error "ERROR: No valid queries found in CSV file!"
      else
        runScreening (parse_query_csv fileExists rows).1 dbExists modelFiles
          scoring minScore topN
    | none =>
      runScreening
        [⟨"Query", query_molecule.getD "", is_smiles fileExists (query_molecule.getD "")⟩]
        dbExists modelFiles scoring minScore topN

theorem score_model_fst (scoring : String → Except String ℚ) (m : String) :
    (score_model scoring m).1.1 = m := by
  unfold score_model
  cases scoring m <;> rfl

/-- Claim C3: whenever loading or scoring a model raises, the worker
returns the pair `(model_path, -1.0)` instead of propagating the
exception, its diagnostic names the failing model path, and every model
in the batch still contributes exactly one result pair carrying its own
path, so other pairs' results are unaffected. -/
theorem scoring_failure_isolated (scoring : String → Except String ℚ)
    (model_path e : String) (h : scoring model_path = .error e) :
    (score_model scoring model_path).1 = (model_path, -1) ∧
    (score_model scoring model_path).2 =
      some ("Error processing " ++ model_path ++ ": " ++ e) ∧
    ∀ modelFiles : List String,
      modelFiles.map (fun m => (score_model scoring m).1.1) = modelFiles := by
  refine ⟨?_, ?_, ?_⟩
  · unfold score_model
    rw [h]
  · unfold score_model
    rw [h]
  · intro modelFiles
    induction modelFiles with
    | nil => rfl
    | cons a l ih => simp [score_model_fst, ih]

theorem scoring_failure_isolated_witness :
    (score_model (fun _ => Except.error "boom") "m.pm").1 = ("m.pm", -1) ∧
    (score_model (fun _ => Except.error "boom") "m.pm").2 =
      some ("Error processing " ++ "m.pm" ++ ": " ++ "boom") ∧
    ∀ modelFiles : List String,
      modelFiles.map (fun m => (score_model (fun _ => Except.error "boom") m).1.1) =
        modelFiles :=
  scoring_failure_isolated (fun _ => Except.error "boom") "m.pm" "boom" rfl

theorem mem_rankResults_mem_filter {minScore : ℚ} {topN : Option ℤ}
    {rs : List (String × ℚ)} {x : String × ℚ}
    (hx : x ∈ rankResults minScore topN rs) : x ∈ filterResults minScore rs := by
  have hsort : x ∈ sortResults (filterResults minScore rs) := by
    cases topN with
    | none => exact hx
    | some k => exact (List.take_sublist _ _).mem hx
  exact List.mem_mergeSort.mp hsort

theorem mem_filterResults {minScore : ℚ} {rs : List (String × ℚ)} {x : String × ℚ} :
    x ∈ filterResults minScore rs ↔ x ∈ rs ∧ minScore ≤ x.2 := by
  unfold filterResults
  simp [List.mem_filter]

/-- Claim C4: when `min_score ≥ 0`, no entry of the ranked output
carries the failure sentinel score `-1.0`: the sentinel is strictly
below every non-negative threshold, so the filter step excludes it. -/
theorem sentinel_never_ranked (minScore : ℚ) (topN : Option ℤ)
    (rs : List (String × ℚ)) (h : 0 ≤ minScore) :
    ∀ x ∈ rankResults minScore topN rs, x.2 ≠ -1 := by
  intro x hx
  have hmem := mem_rankResults_mem_filter hx
  have hscore : minScore ≤ x.2 := (mem_filterResults.mp hmem).2
  intro hserr
  rw [hserr] at hscore
  linarith

theorem sentinel_never_ranked_witness :
    (("m" : String), (5 : ℚ)).2 ≠ -1 :=
  sentinel_never_ranked 0 none [("m", 5), ("bad", -1)] le_rfl ("m", 5)
    (by
      have h1 : filterResults 0 [("m", 5), ("bad", -1)] = [("m", (5 : ℚ))] := by
        unfold filterResults
        simp
      have h2 : rankResults 0 none [("m", 5), ("bad", -1)] = [("m", (5 : ℚ))] := by
        unfold rankResults sortResults
        rw [h1, List.mergeSort_singleton]
      rw [h2]
      exact List.mem_singleton.mpr rfl)

theorem scoreLe_trans : ∀ a b c : String × ℚ, scoreLe a b → scoreLe b c → scoreLe a c := by
  intro a b c hab hbc
  simp only [scoreLe, decide_eq_true_eq] at *
  exact le_trans hbc hab

theorem scoreLe_total : ∀ a b : String × ℚ, scoreLe a b || scoreLe b a := by
  intro a b
  simp only [scoreLe, Bool.or_eq_true, decide_eq_true_eq]
  exact le_total b.2 a.2

/-- Claim C1: the ranked output is sorted by score descending (every
entry's score is at least every later entry's, so in particular any two
adjacent entries are ordered), the ranked output is a sublist of the
sorted filtered list (truncation keeps a prefix, preserving relative
order), and any two retained entries with equal scores keep the
relative order they had in the model-enumeration input (stability). -/
theorem ranking_sorted_and_stable (minScore : ℚ) (topN : Option ℤ)
    (rs : List (String × ℚ)) :
    List.Pairwise (fun a b : String × ℚ => b.2 ≤ a.2) (rankResults minScore topN rs) ∧
    (rankResults minScore topN rs).Sublist (sortResults (filterResults minScore rs)) ∧
    (∀ a b : String × ℚ, a.2 = b.2 → minScore ≤ a.2 →
      [a, b].Sublist rs → [a, b].Sublist (sortResults (filterResults minScore rs))) := by
  have hsorted : List.Pairwise (fun a b : String × ℚ => b.2 ≤ a.2)
      (sortResults (filterResults minScore rs)) := by
    have hp := List.sorted_mergeSort scoreLe_trans scoreLe_total (filterResults minScore rs)
    exact hp.imp (fun h => of_decide_eq_true h)
  have hsub : (rankResults minScore topN rs).Sublist
      (sortResults (filterResults minScore rs)) := by
    cases topN with
    | none => exact List.Sublist.refl _
    | some k => exact List.take_sublist _ _
  refine ⟨List.Pairwise.sublist hsub hsorted, hsub, ?_⟩
  intro a b hab hmin hsubl
  apply List.pair_sublist_mergeSort scoreLe_trans scoreLe_total
  · show scoreLe a b
    simp [scoreLe, hab]
  · have hpb : minScore ≤ b.2 := hab ▸ hmin
    have hfil : ([a, b] : List (String × ℚ)).filter (fun p => decide (minScore ≤ p.2)) =
        [a, b] := by
      simp [List.filter, hmin, hpb]
    show [a, b].Sublist (filterResults minScore rs)
    unfold filterResults
    exact hfil ▸ hsubl.filter (fun p => decide (minScore ≤ p.2))

theorem ranking_sorted_and_stable_witness :
    [(("A" : String), (2 : ℚ)), ("C", 2)].Sublist
      (sortResults (filterResults 0 [("A", 2), ("B", 3), ("C", 2)])) :=
  (ranking_sorted_and_stable 0 none [("A", 2), ("B", 3), ("C", 2)]).2.2
    ("A", 2) ("C", 2) rfl (by norm_num)
    (List.Sublist.cons₂ _ (List.Sublist.cons _ (List.Sublist.cons₂ _ List.Sublist.slnil)))

/-- Claim C2: the filter step retains exactly the entries whose score is
at least the threshold `t`; for `t > 0` the ranked output at threshold
`t` is a subset of the ranked output at threshold `0`; and filtering is
a no-op when `t` is at most every score in the input. -/
theorem filter_threshold_semantics (t : ℚ) (rs : List (String × ℚ)) :
    (∀ p : String × ℚ, p ∈ filterResults t rs ↔ p ∈ rs ∧ t ≤ p.2) ∧
    (0 < t → ∀ x ∈ rankResults t none rs, x ∈ rankResults 0 none rs) ∧
    ((∀ x ∈ rs, t ≤ x.2) → filterResults t rs = rs) := by
  refine ⟨fun p => mem_filterResults, ?_, ?_⟩
  · intro ht x hx
    have hmem := mem_rankResults_mem_filter hx
    rw [mem_filterResults] at hmem
    show x ∈ sortResults (filterResults 0 rs)
    unfold sortResults
    rw [List.mem_mergeSort, mem_filterResults]
    exact ⟨hmem.1, le_trans (le_of_lt ht) hmem.2⟩
  · intro hall
    unfold filterResults
    apply List.filter_eq_self.mpr
    intro x hx
    exact decide_eq_true (hall x hx)

theorem filter_threshold_semantics_witness :
    filterResults 1 [("A", (2 : ℚ))] = [("A", 2)] ∧
    ("A", (2 : ℚ)) ∈ rankResults 0 none [("A", 2)] := by
  have h := filter_threshold_semantics 1 [("A", (2 : ℚ))]
  have hf : filterResults 1 [("A", (2 : ℚ))] = [("A", 2)] := by
    refine h.2.2 ?_
    intro x hx
    rw [List.mem_singleton] at hx
    rw [hx]
    norm_num
  refine ⟨hf, h.2.1 (by norm_num) ("A", 2) ?_⟩
  show ("A", (2 : ℚ)) ∈ sortResults (filterResults 1 [("A", 2)])
  unfold sortResults
  rw [hf, List.mergeSort_singleton]
  exact List.mem_singleton.mpr rfl

/-- Claim C5 counterexample: argparse accepts any integer for `--top_n`,
and for a negative `k` the Python slice `result[:k]` drops the last
`-k` entries instead of truncating to the first `k`.  At `k = -1` with
one filtered entry the output length is `0`, while the claimed formula
`min(k, len(filtered_results))` demands `-1`. -/
theorem top_n_truncation_counterexample :
    ¬ (((rankResults 0 (some (-1)) [("A", (5 : ℚ))]).length : ℤ) =
        min (-1 : ℤ) ((filterResults 0 [("A", (5 : ℚ))]).length : ℤ)) := by
  have hf : filterResults 0 [("A", (5 : ℚ))] = [("A", 5)] := by
    unfold filterResults
    simp
  have hr : rankResults 0 (some (-1)) [("A", (5 : ℚ))] = [] := by
    show pyTruncate (-1) (sortResults (filterResults 0 [("A", (5 : ℚ))])) = []
    rw [hf]
    unfold sortResults
    rw [List.mergeSort_singleton]
    unfold pyTruncate
    rw [if_pos (by norm_num)]
    norm_num
  rw [hr, hf]
  norm_num

/-- Claim C5 (amended): for every *non-negative* `top_n` value `k` that
is set, the ranking stage truncates to the first `k` entries, so the
output length equals `min(k, length of the filtered result list)`.
(For a negative `k`, the slice `result[:k]` instead drops the last `-k`
entries.) -/
theorem top_n_truncation (minScore : ℚ) (rs : List (String × ℚ)) (k : ℤ) (hk : 0 ≤ k) :
    (rankResults minScore (some k) rs).length =
      min k.toNat (filterResults minScore rs).length := by
  show (pyTruncate k (sortResults (filterResults minScore rs))).length = _
  unfold pyTruncate
  rw [if_neg (by omega)]
  rw [List.length_take]
  unfold sortResults
  rw [List.length_mergeSort]

theorem top_n_truncation_witness :
    (rankResults 0 (some 2) [("A", (5 : ℚ))]).length =
      min (2 : ℤ).toNat (filterResults 0 [("A", (5 : ℚ))]).length :=
  top_n_truncation 0 [("A", 5)] 2 (by norm_num)

/-- A node of the filesystem snapshot seen by the Model Repository
Scanner: a plain file, or a directory with its entries listed in the
platform's enumeration order. -/
inductive FSNode where
  | file : String → FSNode
  | dir : String → List FSNode → FSNode

/-- The entry name of a filesystem node. -/
def FSNode.name : FSNode → String
  | .file n => n
  | .dir n _ => n

/-- The fnmatch test for the glob pattern `*.pm`: the entry name ends
with `.pm`.  Stated on the character list of the name (this is
`String.endsWith ".pm"`, phrased so the kernel can evaluate it). -/
def matchesPm (n : String) : Bool :=
  ".pm".data.isSuffixOf n.data

/-- The entries of one directory that match the glob pattern `*.pm`,
as full paths under the given path `pre`, in enumeration order
(`pathlib`'s `_WildcardSelector` scans `scandir` order and matches
entries of any kind by name). -/
def pmMatches (pre : String) (entries : List FSNode) : List String :=
  entries.filterMap fun e => if matchesPm e.name then some (pre ++ e.name) else none

mutual
/-- Embedding of `database_path.rglob("*.pm")` (reverse_screening.py:238)
on a snapshot rooted at a directory node: `pathlib` iterates the
directories in pre-order (each directory before its subdirectories, in
enumeration order) and, for each, yields its `*.pm` matches in
enumeration order.  No sorting of any kind is applied. -/
def rglobPm (pre : String) : FSNode → List String
  | .file _ => []
  | .dir n es => pmMatches (pre ++ n ++ "/") es ++ rglobPmList (pre ++ n ++ "/") es
/-- The recursive descent of `rglobPm` into a directory's entries. -/
def rglobPmList (pre : String) : List FSNode → List String
  | [] => []
  | e :: es => rglobPm pre e ++ rglobPmList pre es
end

mutual
/-- Number of `*.pm`-matching entries in the whole tree (each directory
contributes the matches among its own entries). -/
def pmCountNode : FSNode → Nat
  | .file _ => 0
  | .dir _ es => es.countP (fun e => matchesPm e.name) + pmCountList es
/-- Sum of `pmCountNode` over a list of nodes. -/
def pmCountList : List FSNode → Nat
  | [] => 0
  | e :: es => pmCountNode e + pmCountList es
end

theorem pmMatches_length (pre : String) (es : List FSNode) :
    (pmMatches pre es).length = es.countP (fun e => matchesPm e.name) := by
  induction es with
  | nil => rfl
  | cons e es ih =>
    simp only [pmMatches, List.filterMap_cons, List.countP_cons] at *
    by_cases h : matchesPm e.name <;> simp [h, ih]

mutual
theorem rglobPm_len (pre : String) : ∀ t : FSNode, (rglobPm pre t).length = pmCountNode t
  | .file _ => by simp [rglobPm, pmCountNode]
  | .dir n es => by
    simp [rglobPm, pmCountNode, pmMatches_length, rglobPmList_len (pre ++ n ++ "/") es]
theorem rglobPmList_len (pre : String) :
    ∀ es : List FSNode, (rglobPmList pre es).length = pmCountList es
  | [] => by simp [rglobPmList, pmCountList]
  | e :: es => by
    simp [rglobPmList, pmCountList, rglobPm_len pre e, rglobPmList_len pre es]
end

/-- A snapshot on which `rglob`'s traversal order is visibly not
lexicographic even though each directory's enumeration order is: the
database directory `db` holds subdirectory `a` (containing `a/x.pm`)
and file `b.pm`. -/
def exampleTree : FSNode :=
  .dir "db" [.dir "a" [.file "x.pm"], .file "b.pm"]

/-- Claim C6 counterexample: the scanner applies no sorting.  On
`exampleTree`, `rglob` yields the root's own match `db/b.pm` before the
subdirectory match `db/a/x.pm`, so the output is not lexicographically
sorted — even though every per-directory enumeration in the snapshot is
lexicographically sorted, so this misordering is platform-independent. -/
theorem scanner_not_sorted_counterexample :
    rglobPm "" exampleTree = ["db/b.pm", "db/a/x.pm"] ∧
    ("db/a/x.pm" : String) < "db/b.pm" := by
  constructor
  · simp only [exampleTree, rglobPm, rglobPmList, pmMatches]
    decide
  · rw [String.lt_iff_toList_lt]
    decide

/-- Claim C6 (amended): the Model Repository Scanner returns the
discovered model-file paths as an ordered list in `rglob` traversal
order — each directory's `*.pm` matches in the platform's enumeration
order, directories visited in pre-order.  It performs no lexicographic
sorting, so the order is deterministic only relative to the snapshot's
enumeration order.  It discovers every `*.pm` entry of the tree exactly
once: the output length equals the tree's total `*.pm` entry count. -/
theorem scanner_traversal_complete (pre : String) (t : FSNode) :
    (rglobPm pre t).length = pmCountNode t :=
  rglobPm_len pre t

theorem runScreening_aborts (qs : List QueryRec) (dbExists : Bool)
    (modelFiles : List String) (minScore : ℚ) (topN : Option ℤ)
    (h : dbExists = false ∨ modelFiles = []) :
    ∃ e, ∀ scoring, runScreening qs dbExists modelFiles scoring minScore topN =
      Except.error e := by
  cases hdb : dbExists with
  | false =>
    refine ⟨"ERROR: Database directory not found", fun scoring => ?_⟩
    unfold runScreening
    rw [if_pos rfl]
  | true =>
    have hm : modelFiles = [] := by
      rcases h with h' | h'

      · exact absurd h' (by simp [hdb])
      · exact h'
    subst hm
    refine ⟨"ERROR: No .pm files found in database directory!", fun scoring => ?_⟩
    unfold runScreening
    rw [if_neg (by simp), if_pos rfl]

/-- Claim C7: the run terminates with a non-zero exit status and writes
no output artifact (the result is `.error`) whenever both or neither
query source is supplied, the database directory does not exist, the
database holds zero model files, or the batch query input yields zero
valid rows.  The resulting error is one fixed value for every scoring
oracle, so termination happens before any scoring work. -/
theorem invalid_config_aborts (query_molecule : Option String)
    (rows? : Option (List Row)) (fileExists : String → Bool) (dbExists : Bool)
    (modelFiles : List String) (minScore : ℚ) (topN : Option ℤ)
    (h : truthy query_molecule = rows?.isSome
        ∨ dbExists = false
        ∨ modelFiles = []
        ∨ (∃ rows, rows? = some rows ∧ (parse_query_csv fileExists rows).1 = [])) :
    ∃ e, ∀ scoring, runMain query_molecule rows? fileExists dbExists modelFiles
        scoring minScore topN = Except.error e := by
  cases rows? with
  | none =>
    cases hqm : truthy query_molecule with
    | false =>
      refine ⟨"Must provide either --query_molecule or --query_csv", fun scoring => ?_⟩
      unfold runMain
      rw [if_pos ⟨hqm, rfl⟩]
    | true =>
      have hdbm : dbExists = false ∨ modelFiles = [] := by
        rcases h with hq | hdb | hm | ⟨rows, hrows, _⟩
        · rw [hqm] at hq
          exact absurd hq.symm (by simp)
        · exact Or.inl hdb
        · exact Or.inr hm
        · exact absurd hrows (by simp)
      obtain ⟨e, he⟩ := runScreening_aborts
        [⟨"Query", query_molecule.getD "", is_smiles fileExists (query_molecule.getD "")⟩]
        dbExists modelFiles minScore topN hdbm
      refine ⟨e, fun scoring => ?_⟩
      unfold runMain
      rw [if_neg (by simp [hqm]), if_neg (by simp)]
      exact he scoring
  | some rows =>
    cases hqm : truthy query_molecule with
    | true =>
      refine ⟨"Cannot use both --query_molecule and --query_csv", fun scoring => ?_⟩
      unfold runMain
      rw [if_neg (by simp [hqm]), if_pos ⟨hqm, rfl⟩]
    | false =>
      by_cases hp : (parse_query_csv fileExists rows).1 = []
      · refine ⟨"ERROR: No valid queries found in CSV file!", fun scoring => ?_⟩
        unfold runMain
        rw [if_neg (by simp), if_neg (by simp [hqm])]
        show (if (parse_query_csv fileExists rows).1 = [] then _ else _) = _
        rw [if_pos hp]
      · have hdbm : dbExists = false ∨ modelFiles = [] := by
          rcases h with hq | hdb | hm | ⟨rows2, hrows2, hemp⟩
          · rw [hqm] at hq
            exact absurd hq.symm (by simp)
          · exact Or.inl hdb
          · exact Or.inr hm
          · rw [Option.some_inj] at hrows2
            exact absurd (hrows2 ▸ hemp) hp
        obtain ⟨e, he⟩ := runScreening_aborts (parse_query_csv fileExists rows).1
          dbExists modelFiles minScore topN hdbm
        refine ⟨e, fun scoring => ?_⟩
        unfold runMain
        rw [if_neg (by simp), if_neg (by simp [hqm])]
        show (if (parse_query_csv fileExists rows).1 = [] then _ else _) = _
        rw [if_neg hp]
        exact he scoring

theorem invalid_config_aborts_witness :
    ∃ e, ∀ scoring, runMain none none (fun _ => false) false [] scoring 0 none =
      Except.error e :=
  invalid_config_aborts none none (fun _ => false) false [] 0 none (Or.inl rfl)

/-- Claim C8 counterexample: header matching is not case-insensitive.
In a row whose name column header is spelled `NAME`, the lookup
`row.get('Name', row.get('name', ''))` finds nothing, so the loader
treats the name as missing and skips the row: a batch CSV holding only
that row yields zero queries instead of the claimed query record. -/
theorem csv_header_case_counterexample :
    (parse_query_csv (fun _ => true) [[("NAME", "X"), ("SMILES", "CCO")]]).1 = [] := by
  rfl

/-- Claim C8 (amended): the batch loader accepts exactly two spellings
of each column header — the standard forms `Name`, `SMILES`, `File`
and the all-lowercase forms `name`, `smiles`, `file` (the standard form
preferred) — not arbitrary casings: a row using any other casing, such
as `NAME`, is skipped. -/
theorem csv_header_casing (fileExists : String → Bool) (v s f : String)
    (hv : v ≠ "") (hs : s ≠ "") (hf : f ≠ "") (hex : fileExists f = true) :
    (parse_query_csv fileExists [[("Name", v), ("SMILES", s)]]).1 = [⟨v, s, true⟩] ∧
    (parse_query_csv fileExists [[("name", v), ("smiles", s)]]).1 = [⟨v, s, true⟩] ∧
    (parse_query_csv fileExists [[("Name", v), ("File", f)]]).1 = [⟨v, f, false⟩] ∧
    (parse_query_csv fileExists [[("name", v), ("file", f)]]).1 = [⟨v, f, false⟩] ∧
    (parse_query_csv fileExists [[("NAME", v), ("SMILES", s)]]).1 = [] := by
  refine ⟨?_, ?_, ?_, ?_, ?_⟩ <;>
    simp [parse_query_csv, parseRow, rowGet, List.find?, hv, hs, hf, hex]

theorem csv_header_casing_witness :
    (parse_query_csv (fun _ => true) [[("Name", "X"), ("SMILES", "CCO")]]).1 =
      [⟨"X", "CCO", true⟩] :=
  (csv_header_casing (fun _ => true) "X" "CCO" "m.sdf" (by decide) (by decide)
    (by decide) rfl).1

/-- Claim C9: a batch row carrying a name and non-empty values in both
the SMILES and File columns yields the SMILES-built query; the File
value is silently ignored — the result is identical for every
file-existence oracle (the file's existence is never checked) and the
warning list is empty. -/
theorem both_payloads_smiles_wins (fileExists : String → Bool) (n s f : String)
    (hn : n ≠ "") (hs : s ≠ "") :
    parse_query_csv fileExists [[("Name", n), ("SMILES", s), ("File", f)]] =
      ([⟨n, s, true⟩], []) := by
  simp [parse_query_csv, parseRow, rowGet, List.find?, hn, hs]

theorem both_payloads_smiles_wins_witness :
    parse_query_csv (fun _ => false) [[("Name", "CBN"), ("SMILES", "CCO"),
      ("File", "missing.sdf")]] = ([⟨"CBN", "CCO", true⟩], []) :=
  both_payloads_smiles_wins (fun _ => false) "CBN" "CCO" "missing.sdf"
    (by decide) (by decide)

theorem screenAll_names (qs : List QueryRec) (modelFiles : List String)
    (scoring : QueryRec → String → Except String ℚ) (minScore : ℚ) (topN : Option ℤ) :
    ∀ r ∈ screenAll qs modelFiles scoring minScore topN, ∃ q ∈ qs, r.1 = q.name := by
  intro r hr
  unfold screenAll at hr
  rw [List.mem_flatMap] at hr
  obtain ⟨q, hq, hr⟩ := hr
  rw [List.mem_map] at hr
  obtain ⟨p, _, hp⟩ := hr
  exact ⟨q, hq, by rw [← hp]⟩

/-- Claim C10: in single-query mode the constructed query record always
carries the fixed name `Query`, so every row written to the output
table of a completed run carries `query_name = "Query"`. -/
theorem single_query_fixed_name (qstr : String) (fileExists : String → Bool)
    (dbExists : Bool) (modelFiles : List String)
    (scoring : QueryRec → String → Except String ℚ) (minScore : ℚ) (topN : Option ℤ)
    (rows : List (String × String × ℚ))
    (h : runMain (some qstr) none fileExists dbExists modelFiles scoring minScore
      topN = Except.ok rows) :
    ∀ r ∈ rows, r.1 = "Query" := by
  unfold runMain at h
  by_cases hq : truthy (some qstr) = false
  · rw [if_pos ⟨hq, rfl⟩] at h
    exact absurd h (by simp)
  · rw [Bool.not_eq_false] at hq
    rw [if_neg (by simp [hq]), if_neg (by simp)] at h
    show ∀ r ∈ rows, r.1 = "Query"
    unfold runScreening at h
    by_cases hdb : dbExists = false
    · rw [if_pos hdb] at h
      exact absurd h (by simp)
    · rw [if_neg hdb] at h
      by_cases hm : modelFiles = []
      · rw [if_pos hm] at h
        exact absurd h (by simp)
      · rw [if_neg hm] at h
        rw [Except.ok.injEq] at h
        intro r hr
        rw [← h] at hr
        obtain ⟨q, hq2, hr2⟩ := screenAll_names _ _ _ _ _ r hr
        rw [List.mem_singleton] at hq2
        rw [hr2, hq2]

theorem single_query_fixed_name_witness :
    ("Query", "m.pm", (5 : ℚ)).1 = "Query" :=
  single_query_fixed_name "CCO" (fun _ => false) true ["m.pm"] (fun _ _ => .ok 5)
    0 none [("Query", "m.pm", 5)]
    (by
      unfold runMain runScreening screenAll
      rw [if_neg (by simp [truthy]), if_neg (by simp)]
      rw [if_neg (by simp), if_neg (by simp)]
      have hrank : rankResults 0 none [("m.pm", (5 : ℚ))] = [("m.pm", 5)] := by
        have hf : filterResults 0 [("m.pm", (5 : ℚ))] = [("m.pm", 5)] := by
          unfold filterResults
          simp
        show sortResults (filterResults 0 [("m.pm", (5 : ℚ))]) = [("m.pm", 5)]
        rw [hf]
        unfold sortResults
        rw [List.mergeSort_singleton]
      simp [score_model, hrank])
    ("Query", "m.pm", 5) (List.mem_singleton.mpr rfl)

end RevScreening
